import Mathlib

/-!
Verification of configuration.py: a hierarchical key-value configuration
store with pluggable persistence backends (File, Consul), accessed through
dot-separated path keys.

The embedding below translates the module's data model and operations:

- Python/JSON values are the inductive type Value; dicts are association
  lists of (key, value) pairs in insertion order, matching Python dict
  iteration/creation order (an update keeps the entry position, a new key
  is appended at the end).
- ConfigurationProvider.get_val / set_val / _search_and_replace are pure
  functions on those lists.
- The file backend (ConfigurationProviderFile) is the structure FileState:
  the in-memory tree plus the parsed content of the JSON file on disk
  (none models a file that is missing, unreadable or malformed, which is
  exactly the failure the Python code collapses to).  json.dump with
  sort_keys=True is modelled by writing the document with all mappings
  recursively sorted by key; json.load of what json.dump wrote is the
  document itself (the JSON codec is the Python standard library, outside
  this repository, and is used only through that contract).
- The Configuration facade and switch_provider are modelled over a
  Filesystem (what open + json.load would find at each path) with Python
  exceptions reified as an error type.

Raised exceptions are modelled as Option / Except / explicit error
components; a function that cannot raise is total.
-/

namespace Config

/-- JSON-style values stored in a configuration tree: null, booleans,
numbers (modelled as integers), strings, and nested string-keyed mappings.
Python None and JSON null are the same value, Value.null. -/
inductive Value where
  | null
  | bool (b : Bool)
  | int (n : Int)
  | str (s : String)
  | obj (fields : List (String × Value))

/-- Python dict read d[k]: the value of the first entry with key k. -/
def lookup : List (String × Value) → String → Option Value
  | [], _ => none
  | (k', v') :: rest, k => if k' = k then some v' else lookup rest k

/-- Python dict write d[k] = v: replace the value in place if the key is
present, otherwise append the new entry at the end (insertion order). -/
def setEntry : List (String × Value) → String → Value → List (String × Value)
  | [], k, v => [(k, v)]
  | (k', v') :: rest, k, v =>
    if k' = k then (k, v) :: rest else (k', v') :: setEntry rest k v

/-- isinstance(val, MutableMapping): true exactly for dict values. -/
def Value.isObj : Value → Bool
  | .obj _ => true
  | _ => false

/-- The traversal reduce(lambda d, k: d[k], keys, conf) inside
ConfigurationProvider.get_val (configuration.py line 152): walk the tree
one segment at a time; a missing key or an indexing of a non-mapping
raises in Python, modelled as none (get_val catches every exception). -/
def getPath : Value → List String → Option Value
  | v, [] => some v
  | .obj fs, k :: ks =>
    match lookup fs k with
    | some w => getPath w ks
    | none => none
  | _, _ :: _ => none

/-- ConfigurationProvider.get_val (configuration.py lines 138-154): the
empty key returns the whole configuration; otherwise the key is split on
dots and the tree is walked, any exception being swallowed into None
(returned here as Value.null, which is what Python None is). -/
def get_val (conf : List (String × Value)) (key : String) : Value :=
  if key = "" then Value.obj conf
  else
    match getPath (Value.obj conf) (key.splitOn ".") with
    | some v => v
    | none => Value.null

/-- The dict the loop of _search_and_replace descends into for one
segment: the existing value if it is a mapping, otherwise a fresh empty
dict (both the KeyError branch and the non-MutableMapping overwrite of
configuration.py lines 171-177 install dict()). -/
def childFields (d : List (String × Value)) (k : String) : List (String × Value) :=
  match lookup d k with
  | some (Value.obj fs) => fs
  | _ => []

/-- The loop of ConfigurationProvider._search_and_replace over the split
key list (configuration.py lines 165-179), written as recursion over the
segment list: all but the last segment are resolved (creating or
destructively coercing mappings as needed) and the last segment is
assigned the value.  Since the Python loop mutates nested dicts in place,
each level's entry is rewritten with its updated child here.  The [] case
is unreachable: String.splitOn never returns an empty list. -/
def sarGo (d : List (String × Value)) : List String → Value → List (String × Value)
  | [], _ => d
  | [last], v => setEntry d last v
  | k :: k2 :: rest, v =>
    setEntry d k (Value.obj (sarGo (childFields d k) (k2 :: rest) v))

/-- ConfigurationProvider._search_and_replace(d, k, v) (configuration.py
lines 156-179): split the key on dots and run the traversal loop. -/
def search_and_replace (d : List (String × Value)) (k : String) (v : Value) :
    List (String × Value) :=
  sarGo d (k.splitOn ".") v

/-- Lexicographic comparison of char-code sequences: the order in which
json.dump(..., sort_keys=True) emits keys (byte order on ASCII keys). -/
def charsLe : List Char → List Char → Bool
  | [], _ => true
  | _ :: _, [] => false
  | c :: cs, d :: ds =>
    if c.toNat = d.toNat then charsLe cs ds else decide (c.toNat < d.toNat)

/-- Key order used by sort_keys=True, on the characters of the strings. -/
def keyLe (a b : String) : Bool := charsLe a.data b.data

/-- Stable insertion of an entry into a key-sorted list: an entry moving
left past strictly greater keys only, so that among equal keys the
original first entry stays first. -/
def insertSorted (x : String × Value) : List (String × Value) → List (String × Value)
  | [] => [x]
  | y :: ys => if keyLe x.1 y.1 then x :: y :: ys else y :: insertSorted x ys

/-- Insertion sort of a dict's entries by key. -/
def sortPairs : List (String × Value) → List (String × Value)
  | [] => []
  | x :: xs => insertSorted x (sortPairs xs)

mutual

/-- Recursive key-sorting of a value, the shape a tree has after being
written by json.dump(..., sort_keys=True) and read back by json.load:
every mapping's entries appear in key order, values unchanged otherwise. -/
def sortValue : Value → Value
  | .obj fs => .obj (sortPairs (sortFieldsVals fs))
  | v => v

/-- Pointwise sortValue over a dict's entries (keys kept in place). -/
def sortFieldsVals : List (String × Value) → List (String × Value)
  | [] => []
  | (k, v) :: rest => (k, sortValue v) :: sortFieldsVals rest

end

/-- A whole JSON document as json.dump(..., sort_keys=True) writes it and
json.load reads it back: all levels key-sorted. -/
def sortDoc (d : List (String × Value)) : List (String × Value) :=
  sortPairs (sortFieldsVals d)

/-- State of a ConfigurationProviderFile: the in-memory tree
(self.configuration) and the parsed JSON document on disk; disk = none
models a source file that is missing, unreadable or malformed (the single
coarse failure of the file backend). -/
structure FileState where
  configuration : List (String × Value)
  disk : Option (List (String × Value))

/-- ConfigurationProvider.get_val on the provider's own state. -/
def FileState.get_val (st : FileState) (key : String) : Value :=
  Config.get_val st.configuration key

/-- ConfigurationProviderFile.save_value (configuration.py lines 224-242):
re-read the on-disk document (raising, modelled none, if that fails),
apply _search_and_replace to the re-read copy, and write it back with
sorted keys.  The in-memory tree is not consulted. -/
def FileState.save_value (st : FileState) (key : String) (v : Value) :
    Option FileState :=
  match st.disk with
  | none => none
  | some doc => some { st with disk := some (sortDoc (search_and_replace doc key v)) }

/-- ConfigurationProvider.set_val (configuration.py lines 182-200): mutate
the in-memory tree with _search_and_replace, then save_value, then return
get_val(key) read back from the mutated tree.  If save_value raises, the
exception propagates (second component none) and the in-memory mutation
is kept: the state component is the post-mutation state in either case. -/
def FileState.set_val (st : FileState) (key : String) (v : Value) :
    FileState × Option Value :=
  let st1 : FileState :=
    { st with configuration := search_and_replace st.configuration key v }
  match st1.save_value key v with
  | none => (st1, none)
  | some st2 => (st2, some (st2.get_val key))

/-- ConfigurationProviderFile.save_all (configuration.py lines 244-254):
overwrite the file with the whole in-memory tree, keys sorted. -/
def FileState.save_all (st : FileState) : FileState :=
  { st with disk := some (sortDoc st.configuration) }

/-- ConfigurationProviderFile.import_config (configuration.py lines
212-222): parse the file into self.configuration, or report failure
(return False, modelled none) if the file cannot be read or parsed. -/
def FileState.import_config (st : FileState) : Option FileState :=
  match st.disk with
  | none => none
  | some doc => some { st with configuration := doc }

/-- Python exceptions that the facade and provider construction can
raise, named after the exception classes the code actually produces. -/
inductive PyError where
  | keyError
  | valueError
  | attributeError
  | ioError
  | notImplementedError
deriving DecidableEq

/-- The provider classes reachable by name from get_class: the abstract
base ConfigurationProvider (type string ""), ConfigurationProviderFile
("File") and ConfigurationProviderConsul ("Consul"). -/
inductive ProviderKind where
  | abstract
  | file
  | consul
deriving DecidableEq

/-- The settings mapping of a provider descriptor.  Only the key the file
backend reads is modelled: source = none is a settings dict without a
"source" entry (in particular the empty settings mapping). -/
structure Settings where
  source : Option String
deriving DecidableEq

/-- A config_source dict: {"type": ..., "settings": ...}.  type = none
models a dict with no "type" key (reading it raises KeyError). -/
structure Descriptor where
  type : Option String
  settings : Settings
deriving DecidableEq

/-- Configuration.get_class (configuration.py lines 43-48): getattr on
the module for "ConfigurationProvider" ++ type; an unknown suffix raises
AttributeError (modelled none). -/
def get_class (ty : String) : Option ProviderKind :=
  if ty = "File" then some ProviderKind.file
  else if ty = "Consul" then some ProviderKind.consul
  else if ty = "" then some ProviderKind.abstract
  else none

/-- What open + json.load would produce for each file path: none for a
missing, unreadable or malformed file. -/
abbrev Filesystem := String → Option (List (String × Value))

/-- A constructed provider object: its class, its settings, and the tree
its construction loaded. -/
structure Provider where
  kind : ProviderKind
  config_settings : Settings
  configuration : List (String × Value)

/-- Instantiating a provider class (ConfigurationProvider.__init__,
configuration.py lines 106-115): construction runs import_config at once.
The abstract base and the Consul class raise NotImplementedError from
import_config.  The file class with no "source" key in its settings has
import_config return False (its KeyError is swallowed), after which
building the IOError message indexes settings["source"] and raises
KeyError; with a source that cannot be loaded it raises IOError. -/
def make_provider (fs : Filesystem) (k : ProviderKind) (s : Settings) :
    Except PyError Provider :=
  match k with
  | ProviderKind.abstract => Except.error PyError.notImplementedError
  | ProviderKind.consul => Except.error PyError.notImplementedError
  | ProviderKind.file =>
    match s.source with
    | none => Except.error PyError.keyError
    | some src =>
      match fs src with
      | none => Except.error PyError.ioError
      | some doc => Except.ok (Provider.mk ProviderKind.file s doc)

/-- The expression self.get_class()(self.config_source["settings"]) shared
by Configuration.__init__ line 41 and switch_provider line 94: resolve the
class from the descriptor's type, then construct it on the settings. -/
def make_from_source (fs : Filesystem) (d : Descriptor) : Except PyError Provider :=
  match d.type with
  | none => Except.error PyError.keyError
  | some ty =>
    match get_class ty with
    | none => Except.error PyError.attributeError
    | some k => make_provider fs k d.settings

/-- Where an exception escaped Configuration construction: before the
provider class was invoked (the type checks of __init__ and the getattr
of get_class) or from inside provider construction (its load). -/
inductive InitError where
  | preAdapter (e : PyError)
  | duringAdapter (e : PyError)
deriving DecidableEq

/-- State of a Configuration facade object: the stored config_source dict
and the current provider object. -/
structure ConfigState where
  config_source : Descriptor
  provider : Provider

/-- True exactly when a Configuration construction result is a failure
raised before any provider was constructed. -/
def failedBeforeAdapter : Except InitError ConfigState → Bool
  | Except.error (InitError.preAdapter _) => true
  | _ => false

/-- Configuration.__init__ (configuration.py lines 17-41): raise
ValueError if config_source["type"] is falsy (KeyError if absent), store
config_source, then build the provider via get_class; any exception from
there propagates, tagged with whether the provider class had been
reached. -/
def Configuration.init (fs : Filesystem) (d : Descriptor) :
    Except InitError ConfigState :=
  match d.type with
  | none => Except.error (InitError.preAdapter PyError.keyError)
  | some ty =>
    if ty = "" then Except.error (InitError.preAdapter PyError.valueError)
    else
      match get_class ty with
      | none => Except.error (InitError.preAdapter PyError.attributeError)
      | some k =>
        match make_provider fs k d.settings with
        | Except.error e => Except.error (InitError.duringAdapter e)
        | Except.ok p => Except.ok (ConfigState.mk d p)

/-- Configuration.switch_provider (configuration.py lines 81-101): first
overwrite self.config_source with the new source (line 91), then build
the new provider from it (line 94); an exception there propagates with
the descriptor already replaced but the old provider still live.  On
success, overwrite = false carries the current in-memory tree into the
new provider, and the new provider becomes current. -/
def switch_provider (fs : Filesystem) (c : ConfigState) (src : Descriptor)
    (overwrite : Bool) : ConfigState × Option PyError :=
  let c1 : ConfigState := { c with config_source := src }
  match make_from_source fs src with
  | Except.error e => (c1, some e)
  | Except.ok p =>
    let p2 := if overwrite then p else { p with configuration := c.provider.configuration }
    ({ c1 with provider := p2 }, none)

/-- One segment list is a prefix of another (segment-wise, so the path it
denotes is an ancestor-or-self of the other path). -/
def segPrefix : List String → List String → Bool
  | [], _ => true
  | _ :: _, [] => false
  | a :: as, b :: bs => if a = b then segPrefix as bs else false

/-- The path qs passes through a destructively coerced segment of the
written path ps in tree d: walking both paths together from the root, some
shared intermediate segment of ps (all but its last segment) currently
holds a non-mapping value, which a write along ps overwrites with a fresh
empty mapping.  Segments that are merely absent are created, not coerced,
and the last segment of ps is assigned, not coerced. -/
def passesCoerced : List (String × Value) → List String → List String → Bool
  | d, p1 :: p2 :: ps, q1 :: qs =>
    if q1 = p1 then
      match lookup d p1 with
      | some (Value.obj child) => passesCoerced child (p2 :: ps) qs
      | some _ => true
      | none => false
    else false
  | _, _, _ => false

/-- Descent of the _search_and_replace loop through segments that
currently hold existing mappings: walkFields d pre is the dict the loop
has in hand (temp_dict) after consuming the segments pre, provided each
of them resolved to a mapping already present; any absent or non-mapping
segment on the way stops this walk (none).  When a scalar sits at some
intermediate segment of a written path, every earlier intermediate
segment necessarily resolves to an existing mapping, so the loop state
on reaching it is exactly walkFields of the preceding segments. -/
def walkFields : List (String × Value) → List String → Option (List (String × Value))
  | d, [] => some d
  | d, k :: ks =>
    match lookup d k with
    | some (Value.obj fs) => walkFields fs ks
    | _ => none

/-- A split path is not present in tree d, in the sense of the read
traversal: its first segment is absent, or a non-mapping value is
encountered while segments remain, or the miss happens deeper. -/
inductive PathMiss : List (String × Value) → List String → Prop where
  | absent (d : List (String × Value)) (k : String) (ks : List String) :
      lookup d k = none → PathMiss d (k :: ks)
  | scalarMid (d : List (String × Value)) (k : String) (ks : List String) (w : Value) :
      lookup d k = some w → w.isObj = false → ks ≠ [] → PathMiss d (k :: ks)
  | deeper (d : List (String × Value)) (k : String) (ks : List String)
      (fs : List (String × Value)) :
      lookup d k = some (Value.obj fs) → PathMiss fs ks → PathMiss d (k :: ks)

/-- Concrete file provider state: empty tree, empty readable file. -/
def stEmpty : FileState := { configuration := [], disk := some [] }

/-- Concrete tree holding a present-but-null value under "a". -/
def confNull : List (String × Value) := [("a", Value.null)]

/-- Concrete file provider state whose source file is unreadable. -/
def stNoDisk : FileState := { configuration := [("a", Value.int 1)], disk := none }

/-- Concrete filesystem: one readable file, good.json. -/
def fsDemo : Filesystem :=
  fun s => if s = "good.json" then some [("x", Value.int 1)] else none

/-- Descriptor of the file backend bound to good.json. -/
def dGood : Descriptor :=
  { type := some "File", settings := { source := some "good.json" } }

/-- Descriptor of the file backend bound to a missing file. -/
def dBad : Descriptor :=
  { type := some "File", settings := { source := some "missing.json" } }

/-- Descriptor with a recognized type but an empty settings mapping. -/
def dEmptySettings : Descriptor :=
  { type := some "File", settings := { source := none } }

/-- The provider that loading dGood from fsDemo constructs. -/
def pGood : Provider :=
  { kind := ProviderKind.file, config_settings := { source := some "good.json" },
    configuration := [("x", Value.int 1)] }

/-- Concrete facade state: file backend on good.json, tree as loaded. -/
def cDemo : ConfigState := { config_source := dGood, provider := pGood }

/-- String.splitOnAux always produces at least one piece. -/
theorem splitOnAux_ne_nil (s sep : String) (b i j : String.Pos) (r : List String) :
    String.splitOnAux s sep b i j r ≠ [] := by
  induction b, i, j, r using String.splitOnAux.induct s sep with
  | _ => unfold String.splitOnAux; simp_all

/-- Splitting any string, even the empty one, yields a nonempty list of
segments (Python str.split behaves the same way). -/
theorem splitOn_ne_nil (s sep : String) : s.splitOn sep ≠ [] := by
  unfold String.splitOn
  split
  · simp
  · exact splitOnAux_ne_nil s sep 0 0 0 []

/-- The empty key splits into the single empty segment. -/
theorem splitOn_empty : "".splitOn "." = [""] := by
  simp +decide [String.splitOn, String.splitOnAux.eq_def]

/-- Concrete split of the one-segment key a. -/
theorem splitOn_a : "a".splitOn "." = ["a"] := by
  simp +decide [String.splitOn, String.splitOnAux.eq_def]

/-- Concrete split of the one-segment key b. -/
theorem splitOn_b : "b".splitOn "." = ["b"] := by
  simp +decide [String.splitOn, String.splitOnAux.eq_def]

/-- Concrete split of the two-segment key a.b. -/
theorem splitOn_ab : "a.b".splitOn "." = ["a", "b"] := by
  simp +decide [String.splitOn, String.splitOnAux.eq_def]

/-- Concrete split of the two-segment key a.c. -/
theorem splitOn_ac : "a.c".splitOn "." = ["a", "c"] := by
  simp +decide [String.splitOn, String.splitOnAux.eq_def]

/-- Concrete split of the three-segment key x.y.z. -/
theorem splitOn_xyz : "x.y.z".splitOn "." = ["x", "y", "z"] := by
  simp +decide [String.splitOn, String.splitOnAux.eq_def]

/-- Reading a key just written into a dict returns the written value. -/
theorem lookup_setEntry_self (d : List (String × Value)) (k : String) (v : Value) :
    lookup (setEntry d k v) k = some v := by
  induction d with
  | nil => simp [setEntry, lookup]
  | cons hd tl ih =>
    obtain ⟨k', v'⟩ := hd
    by_cases h : k' = k <;> simp [setEntry, lookup, h, ih]

/-- Writing one key of a dict leaves every other key's value unchanged. -/
theorem lookup_setEntry_ne (d : List (String × Value)) (k q : String) (v : Value)
    (h : q ≠ k) : lookup (setEntry d k v) q = lookup d q := by
  have hkq : k ≠ q := fun hh => h hh.symm
  induction d with
  | nil => simp [setEntry, lookup, hkq]
  | cons hd tl ih =>
    obtain ⟨k', v'⟩ := hd
    by_cases h' : k' = k
    · subst h'
      simp [setEntry, lookup, hkq]
    · simp [setEntry, lookup, h', ih]

/-- Reading back the exact path just written by the _search_and_replace
loop yields the written value, for any nonempty segment list. -/
theorem getPath_sarGo_self (ks : List String) : ∀ (d : List (String × Value)) (v : Value),
    ks ≠ [] → getPath (Value.obj (sarGo d ks v)) ks = some v := by
  induction ks with
  | nil => intro d v h; exact absurd rfl h
  | cons k rest ih =>
    intro d v _
    cases rest with
    | nil => simp [sarGo, getPath, lookup_setEntry_self]
    | cons k2 rest2 =>
      simp only [sarGo, getPath, lookup_setEntry_self]
      exact ih (childFields d k) v (by simp)

/-- String-level version: get_val after _search_and_replace on the same
nonempty key returns the written value. -/
theorem get_val_sar_self (d : List (String × Value)) (key : String) (v : Value)
    (hk : key ≠ "") : get_val (search_and_replace d key v) key = v := by
  unfold get_val search_and_replace
  rw [if_neg hk, getPath_sarGo_self (key.splitOn ".") d v (splitOn_ne_nil key ".")]

/-- The fresh dict a write descends into when the segment is absent. -/
theorem childFields_of_none (d : List (String × Value)) (k : String)
    (h : lookup d k = none) : childFields d k = [] := by
  unfold childFields
  rw [h]

/-- The existing dict a write descends into when the segment holds one. -/
theorem childFields_of_obj (d : List (String × Value)) (k : String)
    (fs : List (String × Value)) (h : lookup d k = some (Value.obj fs)) :
    childFields d k = fs := by
  unfold childFields
  rw [h]

/-- One unfolding step of the write loop while segments remain. -/
theorem sarGo_cons (d : List (String × Value)) (k : String) (ks : List String)
    (v : Value) (h : ks ≠ []) :
    sarGo d (k :: ks) v = setEntry d k (Value.obj (sarGo (childFields d k) ks v)) := by
  cases ks with
  | nil => exact absurd rfl h
  | cons a b => rfl

/-- Destructive coercion at arbitrary depth: if the write loop, having
descended through the existing mappings along the segments pre, finds a
non-mapping value at the next intermediate segment k (further segments
rest remain), then after the write the tree node at path pre ++ [k] is
exactly the chain obtained by writing the remaining segments into a
fresh empty dict: the scalar is discarded and the loop went on inside
the fresh mapping. -/
theorem getPath_sarGo_coerced (pre : List String) :
    ∀ (d dk : List (String × Value)) (k : String) (rest : List String) (w v : Value),
    walkFields d pre = some dk → lookup dk k = some w → w.isObj = false →
    rest ≠ [] →
    getPath (Value.obj (sarGo d (pre ++ k :: rest) v)) (pre ++ [k]) =
      some (Value.obj (sarGo [] rest v)) := by
  induction pre with
  | nil =>
    intro d dk k rest w v hwalk hlook hobj hrest
    simp only [walkFields, Option.some.injEq] at hwalk
    subst hwalk
    cases rest with
    | nil => exact absurd rfl hrest
    | cons r rs =>
      have hc : childFields d k = [] := by
        unfold childFields
        rw [hlook]
        cases w with
        | obj fs => exact Bool.noConfusion hobj
        | null => rfl
        | bool b => rfl
        | int n => rfl
        | str s => rfl
      simp only [List.nil_append]
      rw [sarGo_cons d k (r :: rs) v (by simp), hc]
      simp [getPath, lookup_setEntry_self]
  | cons p0 pre2 ih =>
    intro d dk k rest w v hwalk hlook hobj hrest
    simp only [walkFields] at hwalk
    cases hl : lookup d p0 with
    | none =>
      rw [hl] at hwalk
      exact Option.noConfusion hwalk
    | some w0 =>
      rw [hl] at hwalk
      cases w0 with
      | obj fs =>
        have hne : pre2 ++ k :: rest ≠ [] := by simp
        rw [List.cons_append, List.cons_append,
          sarGo_cons d p0 (pre2 ++ k :: rest) v hne, childFields_of_obj d p0 fs hl]
        simp only [getPath, lookup_setEntry_self]
        exact ih fs dk k rest w v hwalk hlook hobj hrest
      | null => exact Option.noConfusion hwalk
      | bool b => exact Option.noConfusion hwalk
      | int n => exact Option.noConfusion hwalk
      | str s => exact Option.noConfusion hwalk

/-- Shared first segment does not decide the prefix test: it recurses. -/
theorem segPrefix_cons_same (a : String) (as bs : List String) :
    segPrefix (a :: as) (a :: bs) = segPrefix as bs := by
  simp [segPrefix]

/-- Unfolding of passesCoerced when the two paths share their first
segment and the written path still has further segments. -/
theorem passesCoerced_cons_same (d : List (String × Value)) (p1 p2 : String)
    (ps qs : List String) :
    passesCoerced d (p1 :: p2 :: ps) (p1 :: qs) =
      match lookup d p1 with
      | some (Value.obj child) => passesCoerced child (p2 :: ps) qs
      | some _ => true
      | none => false := by
  simp [passesCoerced]

/-- Reading any path that neither contains nor extends the written path
out of the freshly created chain of mappings a write installs under a
previously absent segment misses: the chain only contains the written
path. -/
theorem getPath_sarGo_fresh (ps : List String) : ∀ (qs : List String) (v : Value),
    segPrefix ps qs = false → segPrefix qs ps = false →
    getPath (Value.obj (sarGo [] ps v)) qs = none := by
  induction ps with
  | nil => intro qs v h1 _; simp [segPrefix] at h1
  | cons p ps2 ih =>
    intro qs v h1 h2
    cases qs with
    | nil => simp [segPrefix] at h2
    | cons q qs2 =>
      by_cases hpq : p = q
      · subst hpq
        cases ps2 with
        | nil => simp [segPrefix] at h1
        | cons p2 ps3 =>
          cases qs2 with
          | nil => simp [segPrefix] at h2
          | cons q2 qs3 =>
            rw [segPrefix_cons_same] at h1 h2
            simp only [sarGo, childFields_of_none [] p rfl, getPath,
              lookup_setEntry_self]
            exact ih (q2 :: qs3) v h1 h2
      · cases ps2 with
        | nil => simp [sarGo, setEntry, getPath, lookup, hpq]
        | cons p2 ps3 => simp [sarGo, setEntry, getPath, lookup, hpq]

/-- Frame property of the _search_and_replace loop: reading a path that
is neither a prefix nor an extension of the written path, and that does
not pass through a destructively coerced segment, is unchanged by the
write. -/
theorem getPath_sarGo_frame (ps : List String) :
    ∀ (qs : List String) (d : List (String × Value)) (v : Value),
    segPrefix ps qs = false → segPrefix qs ps = false →
    passesCoerced d ps qs = false →
    getPath (Value.obj (sarGo d ps v)) qs = getPath (Value.obj d) qs := by
  induction ps with
  | nil => intro qs d v h1 _ _; simp [segPrefix] at h1
  | cons p ps2 ih =>
    intro qs d v h1 h2 h3
    cases qs with
    | nil => simp [segPrefix] at h2
    | cons q qs2 =>
      by_cases hpq : p = q
      · subst hpq
        cases ps2 with
        | nil => simp [segPrefix] at h1
        | cons p2 ps3 =>
          cases qs2 with
          | nil => simp [segPrefix] at h2
          | cons q2 qs3 =>
            rw [segPrefix_cons_same] at h1 h2
            rw [passesCoerced_cons_same] at h3
            simp only [sarGo, getPath, lookup_setEntry_self]
            cases hl : lookup d p with
            | none =>
              rw [childFields_of_none d p hl]
              exact getPath_sarGo_fresh (p2 :: ps3) (q2 :: qs3) v h1 h2
            | some w =>
              rw [hl] at h3
              cases w with
              | obj child =>
                rw [childFields_of_obj d p child hl]
                exact ih (q2 :: qs3) child v h1 h2 h3
              | null => exact Bool.noConfusion h3
              | bool b => exact Bool.noConfusion h3
              | int n => exact Bool.noConfusion h3
              | str s => exact Bool.noConfusion h3
      · have hqp : q ≠ p := fun hh => hpq hh.symm
        cases ps2 with
        | nil =>
          simp only [sarGo, getPath, lookup_setEntry_ne d p q v hqp]
        | cons p2 ps3 =>
          simp only [sarGo, getPath, lookup_setEntry_ne d p q _ hqp]

/-- A path that misses (in the sense of PathMiss) makes the read
traversal come back empty. -/
theorem getPath_of_pathMiss (d : List (String × Value)) (ks : List String)
    (h : PathMiss d ks) : getPath (Value.obj d) ks = none := by
  induction h with
  | absent d k ks hl => simp [getPath, hl]
  | scalarMid d k ks w hl hobj hne =>
    cases ks with
    | nil => exact absurd rfl hne
    | cons k2 ks2 =>
      cases w with
      | obj fs => exact Bool.noConfusion hobj
      | null => simp [getPath, hl]
      | bool b => simp [getPath, hl]
      | int n => simp [getPath, hl]
      | str s => simp [getPath, hl]
  | deeper d k ks fs hl hm ih => simp [getPath, hl, ih]

/-- The key order of sort_keys is reflexive. -/
theorem keyLe_refl (a : String) : keyLe a a = true := by
  unfold keyLe
  induction a.data with
  | nil => rfl
  | cons c cs ih => simp [charsLe, ih]

/-- Stable insertion preserves dict reads: the inserted entry is found
under its own key, every other key reads as before. -/
theorem lookup_insertSorted (x : String × Value) (l : List (String × Value))
    (k : String) :
    lookup (insertSorted x l) k = if x.1 = k then some x.2 else lookup l k := by
  induction l with
  | nil => simp [insertSorted, lookup]
  | cons y ys ih =>
    obtain ⟨ky, vy⟩ := y
    by_cases hle : keyLe x.1 ky = true
    · simp [insertSorted, hle, lookup]
    · simp only [insertSorted, if_neg hle, lookup, ih]
      by_cases hyk : ky = k
      · have hxk : x.1 ≠ k := by
          intro hh
          apply hle
          rw [hh, ← hyk]
          exact keyLe_refl _
        simp [hyk, hxk]
      · simp [hyk]

/-- Insertion sort of a dict's entries preserves every read: it is a
stable permutation, so the first entry for each key is unchanged. -/
theorem lookup_sortPairs (l : List (String × Value)) (k : String) :
    lookup (sortPairs l) k = lookup l k := by
  induction l with
  | nil => rfl
  | cons x xs ih =>
    obtain ⟨kx, vx⟩ := x
    simp [sortPairs, lookup_insertSorted, lookup, ih]

/-- Recursively sorting all values of a dict maps each read through
sortValue. -/
theorem lookup_sortFieldsVals (l : List (String × Value)) (k : String) :
    lookup (sortFieldsVals l) k = (lookup l k).map sortValue := by
  induction l with
  | nil => rfl
  | cons x xs ih =>
    obtain ⟨k', v'⟩ := x
    by_cases h : k' = k <;> simp [sortFieldsVals, lookup, h, ih]

/-- Reads of the document as written with sorted keys are the reads of
the original document, through sortValue. -/
theorem lookup_sortDoc (d : List (String × Value)) (k : String) :
    lookup (sortDoc d) k = (lookup d k).map sortValue := by
  unfold sortDoc
  rw [lookup_sortPairs, lookup_sortFieldsVals]

/-- Path traversal commutes with recursive key-sorting: sorting reorders
mapping entries only, so every path resolves to the sorted image of what
it resolved to before. -/
theorem getPath_sortValue (ks : List String) : ∀ v : Value,
    getPath (sortValue v) ks = (getPath v ks).map Config.sortValue := by
  induction ks with
  | nil => intro v; simp [getPath]
  | cons k ks2 ih =>
    intro v
    cases v with
    | obj fs =>
      have hs : sortValue (Value.obj fs) = Value.obj (sortDoc fs) := by
        simp [sortValue, sortDoc]
      rw [hs]
      simp only [getPath, lookup_sortDoc]
      cases hl : lookup fs k with
      | none => simp
      | some w => simpa using ih w
    | null => simp [sortValue, getPath]
    | bool b => simp [sortValue, getPath]
    | int n => simp [sortValue, getPath]
    | str s => simp [sortValue, getPath]

/-- String-level corollary for get_val: reading any key from the sorted
document gives the sorted image of reading it from the original. -/
theorem get_val_sortDoc (conf : List (String × Value)) (key : String) :
    get_val (sortDoc conf) key = sortValue (get_val conf key) := by
  unfold get_val
  by_cases hk : key = ""
  · subst hk
    simp [sortValue, sortDoc]
  · rw [if_neg hk, if_neg hk]
    have hs : (Value.obj (sortDoc conf)) = sortValue (Value.obj conf) := by
      simp [sortValue, sortDoc]
    rw [hs, getPath_sortValue (key.splitOn ".") (Value.obj conf)]
    cases getPath (Value.obj conf) (key.splitOn ".") with
    | none => simp [sortValue]
    | some w => simp

/-- C1: for every non-empty dot-separated path and every value, set_val
on a file provider whose source file is readable returns exactly the
written value (the post-mutation value read back via get_val), and a
subsequent get_val of the same path on the resulting state also returns
it (set/get round-trip, configuration.py lines 138-154 and 182-200). -/
theorem C1_set_get_roundtrip (st : FileState) (key : String) (v : Value)
    (doc : List (String × Value)) (hk : key ≠ "") (hd : st.disk = some doc) :
    (st.set_val key v).2 = some v ∧ ((st.set_val key v).1).get_val key = v := by
  have h2 : st.set_val key v =
      ({ configuration := search_and_replace st.configuration key v,
         disk := some (sortDoc (search_and_replace doc key v)) },
        some (get_val (search_and_replace st.configuration key v) key)) := by
    unfold FileState.set_val FileState.save_value FileState.get_val
    dsimp only
    rw [hd]
  rw [h2]
  constructor
  · dsimp only
    rw [get_val_sar_self st.configuration key v hk]
  · show get_val (search_and_replace st.configuration key v) key = v
    exact get_val_sar_self st.configuration key v hk

/-- Witness for C1 at the empty store and the concrete path a.b. -/
theorem C1_witness :
    (("a.b" : String) ≠ "") ∧ stEmpty.disk = some [] ∧
    (stEmpty.set_val "a.b" (Value.int 2)).2 = some (Value.int 2) ∧
    ((stEmpty.set_val "a.b" (Value.int 2)).1).get_val "a.b" = Value.int 2 :=
  ⟨by decide, rfl,
    (C1_set_get_roundtrip stEmpty "a.b" (Value.int 2) [] (by decide) rfl).1,
    (C1_set_get_roundtrip stEmpty "a.b" (Value.int 2) [] (by decide) rfl).2⟩

/-- C2 counterexample: set_val with the empty-string path does not fail
and is not side-effect free: Python splits "" into [""], so the entry
with key "" is written at the tree root, the mutated document is
persisted, and the call returns the whole post-mutation tree. -/
theorem C2_counterexample :
    (stEmpty.set_val "" (Value.int 1)).2 = some (Value.obj [("", Value.int 1)]) ∧
    (stEmpty.set_val "" (Value.int 1)).1.configuration ≠ stEmpty.configuration ∧
    (stEmpty.set_val "" (Value.int 1)).1.disk ≠ stEmpty.disk := by
  have h2 : stEmpty.set_val "" (Value.int 1) =
      ({ configuration := [("", Value.int 1)], disk := some [("", Value.int 1)] },
        some (Value.obj [("", Value.int 1)])) := by
    unfold FileState.set_val FileState.save_value FileState.get_val get_val
      search_and_replace stEmpty
    rw [splitOn_empty]
    rfl
  rw [h2]
  refine ⟨rfl, ?_, ?_⟩ <;> simp [stEmpty]

/-- C2 amended: calling set with the empty-string path neither raises an
InvalidPath error nor leaves the store unchanged; the empty path is
treated as the single empty segment, so the empty-string key is set at
the root of the in-memory tree, the same update is persisted to the
re-read on-disk document, and the whole post-mutation tree is returned
(get of the empty key). -/
theorem C2_amended (st : FileState) (v : Value) (doc : List (String × Value))
    (hd : st.disk = some doc) :
    st.set_val "" v =
      ({ configuration := setEntry st.configuration "" v,
         disk := some (sortDoc (setEntry doc "" v)) },
        some (Value.obj (setEntry st.configuration "" v))) := by
  have hs : ∀ d : List (String × Value),
      search_and_replace d "" v = setEntry d "" v := by
    intro d
    unfold search_and_replace
    rw [splitOn_empty]
    rfl
  unfold FileState.set_val FileState.save_value FileState.get_val get_val
  dsimp only
  rw [hd]
  dsimp only
  rw [hs, hs]
  rfl

/-- Witness for C2 amended at the empty store. -/
theorem C2_witness :
    stEmpty.disk = some [] ∧
    stEmpty.set_val "" (Value.int 3) =
      ({ configuration := [("", Value.int 3)], disk := some [("", Value.int 3)] },
        some (Value.obj [("", Value.int 3)])) :=
  ⟨rfl, by rw [C2_amended stEmpty (Value.int 3) [] rfl]; rfl⟩

/-- C3 counterexample: switching to a descriptor whose backend fails to
load propagates the IOError, yet the stored config_source has already
been replaced by the new descriptor (configuration.py line 91 runs
before line 94), so the observable state is not entirely unchanged. -/
theorem C3_counterexample :
    (switch_provider fsDemo cDemo dBad false).2 = some PyError.ioError ∧
    (switch_provider fsDemo cDemo dBad false).1.config_source = dBad ∧
    dBad ≠ cDemo.config_source :=
  ⟨rfl, rfl, by decide⟩

/-- C3 amended: when building the new adapter fails, the raised error
propagates and the live provider object with its in-memory tree is
unchanged, but the stored provider descriptor has already been replaced
by the new one: the caller can observe a mixed descriptor/adapter state. -/
theorem C3_amended (fs : Filesystem) (c : ConfigState) (src : Descriptor)
    (ow : Bool) (e : PyError)
    (h : (switch_provider fs c src ow).2 = some e) :
    (switch_provider fs c src ow).1.provider = c.provider ∧
    (switch_provider fs c src ow).1.config_source = src := by
  unfold switch_provider at h ⊢
  cases hm : make_from_source fs src with
  | error e2 => exact ⟨rfl, rfl⟩
  | ok p =>
    rw [hm] at h
    exact Option.noConfusion h

/-- Witness for C3 amended at the concrete failing switch. -/
theorem C3_amended_witness :
    ((switch_provider fsDemo cDemo dBad false).2 = some PyError.ioError) ∧
    (switch_provider fsDemo cDemo dBad false).1.provider = cDemo.provider ∧
    (switch_provider fsDemo cDemo dBad false).1.config_source = dBad :=
  ⟨rfl, (C3_amended fsDemo cDemo dBad false PyError.ioError rfl).1,
    (C3_amended fsDemo cDemo dBad false PyError.ioError rfl).2⟩

/-- C4 counterexample: a descriptor with the recognized type File but an
empty settings mapping is not rejected before adapter construction: the
provider class is invoked, its load runs and the failure (a KeyError
while building the IOError message) escapes from inside construction. -/
theorem C4_counterexample :
    Configuration.init fsDemo dEmptySettings =
      Except.error (InitError.duringAdapter PyError.keyError) ∧
    failedBeforeAdapter (Configuration.init fsDemo dEmptySettings) = false :=
  ⟨rfl, rfl⟩

/-- C4 amended: a missing type key, a falsy (empty) type string, or an
unrecognized type string makes construction fail before any provider is
constructed; an empty settings mapping, however, is not validated: the
File provider class is constructed, its load is attempted, and the
resulting failure escapes from inside adapter construction. -/
theorem C4_amended (fs : Filesystem) (d : Descriptor)
    (h : d.type = none ∨ d.type = some "" ∨
      (∃ ty, d.type = some ty ∧ get_class ty = none)) :
    (∃ e, Configuration.init fs d = Except.error (InitError.preAdapter e)) ∧
    Configuration.init fs dEmptySettings =
      Except.error (InitError.duringAdapter PyError.keyError) := by
  constructor
  · rcases h with h | h | ⟨ty, hty, hcls⟩
    · refine ⟨PyError.keyError, ?_⟩
      unfold Configuration.init
      rw [h]
    · refine ⟨PyError.valueError, ?_⟩
      unfold Configuration.init
      rw [h]
      rfl
    · have ht0 : ty ≠ "" := by
        intro hh
        rw [hh] at hcls
        simp [get_class] at hcls
      refine ⟨PyError.attributeError, ?_⟩
      unfold Configuration.init
      rw [hty]
      dsimp only
      rw [if_neg ht0, hcls]
  · rfl

/-- Witness for C4 amended: a descriptor with no type key fails before
adapter construction, while empty settings fail from inside it. -/
theorem C4_amended_witness :
    ((Descriptor.mk none (Settings.mk none)).type = none) ∧
    (∃ e, Configuration.init fsDemo (Descriptor.mk none (Settings.mk none)) =
      Except.error (InitError.preAdapter e)) ∧
    Configuration.init fsDemo dEmptySettings =
      Except.error (InitError.duringAdapter PyError.keyError) :=
  ⟨rfl, (C4_amended fsDemo (Descriptor.mk none (Settings.mk none)) (Or.inl rfl)).1,
    (C4_amended fsDemo (Descriptor.mk none (Settings.mk none)) (Or.inl rfl)).2⟩

/-- C5 counterexample: the not-found result of get_val is Python None,
the very value returned when the stored value is null: reading the
present-but-null key a and reading the absent key b from the same tree
give the same result, so the two outcomes are not distinct. -/
theorem C5_counterexample :
    get_val confNull "a" = Value.null ∧ get_val confNull "b" = Value.null ∧
    get_val confNull "a" = get_val confNull "b" := by
  have ha : get_val confNull "a" = Value.null := by
    unfold get_val confNull
    rw [splitOn_a]
    rfl
  have hb : get_val confNull "b" = Value.null := by
    unfold get_val confNull
    rw [splitOn_b]
    rfl
  exact ⟨ha, hb, ha.trans hb.symm⟩

/-- C5 amended: for every nonempty path not present in the tree (first
segment absent, a non-mapping met with segments remaining, or a miss
deeper down), get_val returns Python None (Value.null) and never raises;
that result coincides with reading a present-but-null value rather than
being distinct from it. -/
theorem C5_amended (conf : List (String × Value)) (key : String)
    (hk : key ≠ "") (hm : PathMiss conf (key.splitOn ".")) :
    get_val conf key = Value.null := by
  unfold get_val
  rw [if_neg hk, getPath_of_pathMiss conf (key.splitOn ".") hm]

/-- Witness for C5 amended: the absent key b misses in confNull. -/
theorem C5_amended_witness :
    (("b" : String) ≠ "") ∧ get_val confNull "b" = Value.null :=
  ⟨by decide, C5_amended confNull "b" (by decide)
    (by rw [splitOn_b]; exact PathMiss.absent confNull "b" [] rfl)⟩

/-- C6: when any intermediate segment of the written path currently
holds a non-mapping value, the write overwrites that segment with a
fresh empty mapping and descends into the fresh mapping, discarding the
scalar (configuration.py lines 175-177).  The coerced segment k sits at
arbitrary depth: pre is the (possibly empty) run of earlier segments,
which the loop walked through existing mappings (walkFields), and rest
is the nonempty remainder, so k is intermediate.  After the write, the
tree node at pre ++ [k] is exactly the chain built by writing rest into
a fresh empty dict, in place of the scalar w.  In particular tree
{a: 1} with set(a.b, 2) becomes {a: {b: 2}} (see the witness, which
also exercises a depth-two coercion). -/
theorem C6_destructive_coercion (d : List (String × Value)) (p : String)
    (pre : List String) (k : String) (rest : List String)
    (dk : List (String × Value)) (w : Value) (v : Value)
    (hsplit : p.splitOn "." = pre ++ k :: rest) (hrest : rest ≠ [])
    (hwalk : walkFields d pre = some dk)
    (hlook : lookup dk k = some w) (hobj : w.isObj = false) :
    getPath (Value.obj (search_and_replace d p v)) (pre ++ [k]) =
      some (Value.obj (sarGo [] rest v)) := by
  unfold search_and_replace
  rw [hsplit]
  exact getPath_sarGo_coerced pre d dk k rest w v hwalk hlook hobj hrest

/-- Witness for C6: a scalar coerced at depth two (tree {x: {y: 5}},
set(x.y.z, 2) puts the fresh mapping {z: 2} at x.y) and the documented
depth-one example, tree {a: 1}, set(a.b, 2) yields {a: {b: 2}}. -/
theorem C6_witness :
    ("x.y.z".splitOn "." = ["x", "y", "z"]) ∧
    walkFields [("x", Value.obj [("y", Value.int 5)])] ["x"] =
      some [("y", Value.int 5)] ∧
    getPath (Value.obj (search_and_replace [("x", Value.obj [("y", Value.int 5)])]
        "x.y.z" (Value.int 2))) ["x", "y"] =
      some (Value.obj [("z", Value.int 2)]) ∧
    search_and_replace [("a", Value.int 1)] "a.b" (Value.int 2) =
      [("a", Value.obj [("b", Value.int 2)])] := by
  refine ⟨splitOn_xyz, rfl, ?_, ?_⟩
  · have h := C6_destructive_coercion [("x", Value.obj [("y", Value.int 5)])]
      "x.y.z" ["x"] "y" ["z"] [("y", Value.int 5)] (Value.int 5) (Value.int 2)
      (by rw [splitOn_xyz]; rfl) (by simp) rfl rfl rfl
    exact h.trans rfl
  · unfold search_and_replace
    rw [splitOn_ab]
    rfl

/-- C7: a successful switch with overwrite = false keeps the pre-switch
in-memory tree exactly, whatever tree the new backend loaded; with
overwrite = true the tree the new backend's load returned becomes the
active tree; neither call raises (configuration.py lines 94-101). -/
theorem C7_switch_tree (fs : Filesystem) (c : ConfigState) (src : Descriptor)
    (p : Provider) (h : make_from_source fs src = Except.ok p) :
    (switch_provider fs c src false).1.provider.configuration =
      c.provider.configuration ∧
    (switch_provider fs c src true).1.provider.configuration = p.configuration ∧
    (switch_provider fs c src false).2 = none ∧
    (switch_provider fs c src true).2 = none := by
  unfold switch_provider
  rw [h]
  exact ⟨rfl, rfl, rfl, rfl⟩

/-- Witness for C7 at the concrete successful switch to good.json. -/
theorem C7_witness :
    (make_from_source fsDemo dGood = Except.ok pGood) ∧
    (switch_provider fsDemo cDemo dGood false).1.provider.configuration =
      cDemo.provider.configuration ∧
    (switch_provider fsDemo cDemo dGood true).1.provider.configuration =
      pGood.configuration :=
  ⟨rfl, (C7_switch_tree fsDemo cDemo dGood pGood rfl).1,
    (C7_switch_tree fsDemo cDemo dGood pGood rfl).2.1⟩

/-- C8: when the in-memory mutation succeeds but single-value persistence
fails (the source file cannot be re-read), set_val propagates the failure
to the caller while the in-memory tree keeps the mutation, with no
rollback: a subsequent get of the written path returns the written
value (configuration.py lines 182-200 and 224-242). -/
theorem C8_persist_failure_no_rollback (st : FileState) (key : String)
    (v : Value) (hk : key ≠ "") (hd : st.disk = none) :
    (st.set_val key v).2 = none ∧
    (st.set_val key v).1.configuration = search_and_replace st.configuration key v ∧
    ((st.set_val key v).1).get_val key = v := by
  have h2 : st.set_val key v =
      ({ configuration := search_and_replace st.configuration key v, disk := none },
        none) := by
    unfold FileState.set_val FileState.save_value
    dsimp only
    rw [hd]
  rw [h2]
  refine ⟨rfl, rfl, ?_⟩
  show get_val (search_and_replace st.configuration key v) key = v
  exact get_val_sar_self st.configuration key v hk

/-- Witness for C8 at the concrete unreadable-file provider state. -/
theorem C8_witness :
    (("a.b" : String) ≠ "") ∧ stNoDisk.disk = none ∧
    (stNoDisk.set_val "a.b" (Value.int 2)).2 = none ∧
    ((stNoDisk.set_val "a.b" (Value.int 2)).1).get_val "a.b" = Value.int 2 :=
  ⟨by decide, rfl,
    (C8_persist_failure_no_rollback stNoDisk "a.b" (Value.int 2) (by decide) rfl).1,
    (C8_persist_failure_no_rollback stNoDisk "a.b" (Value.int 2) (by decide) rfl).2.2⟩

/-- C9: writing the whole in-memory tree with the file adapter's save_all
and reading it back with its load (import_config) succeeds and yields the
same tree up to the recursive key reordering performed by sort_keys, a
reordering Python dict equality does not observe: the reloaded tree is
the key-sorted document, and every get_val read of it is the key-sorted
image of the corresponding read of the original tree. -/
theorem C9_file_roundtrip (st : FileState) :
    ∃ st2, (st.save_all).import_config = some st2 ∧
      st2.configuration = sortDoc st.configuration ∧
      ∀ key : String, get_val st2.configuration key =
        sortValue (get_val st.configuration key) := by
  refine ⟨{ configuration := sortDoc st.configuration,
            disk := some (sortDoc st.configuration) }, rfl, rfl, ?_⟩
  intro key
  exact get_val_sortDoc st.configuration key

/-- C10: frame property of the tree mutation of set: a write along a
nonempty path p changes no read of a path q that is neither a prefix nor
an extension of p and does not pass through a destructively coerced
segment of p. -/
theorem C10_set_frame (conf : List (String × Value)) (p q : String) (v : Value)
    (hp : p ≠ "") (hq : q ≠ "")
    (h1 : segPrefix (p.splitOn ".") (q.splitOn ".") = false)
    (h2 : segPrefix (q.splitOn ".") (p.splitOn ".") = false)
    (h3 : passesCoerced conf (p.splitOn ".") (q.splitOn ".") = false) :
    get_val (search_and_replace conf p v) q = get_val conf q := by
  unfold get_val search_and_replace
  rw [if_neg hq, if_neg hq,
    getPath_sarGo_frame (p.splitOn ".") (q.splitOn ".") conf v h1 h2 h3]

/-- Witness for C10: writing a.c leaves the sibling key b unchanged. -/
theorem C10_witness :
    (segPrefix ("a.c".splitOn ".") ("b".splitOn ".") = false) ∧
    (segPrefix ("b".splitOn ".") ("a.c".splitOn ".") = false) ∧
    (passesCoerced [("a", Value.int 1), ("b", Value.int 2)]
      ("a.c".splitOn ".") ("b".splitOn ".") = false) ∧
    get_val (search_and_replace [("a", Value.int 1), ("b", Value.int 2)]
      "a.c" (Value.int 9)) "b" =
      get_val [("a", Value.int 1), ("b", Value.int 2)] "b" := by
  have e1 : segPrefix ("a.c".splitOn ".") ("b".splitOn ".") = false := by
    rw [splitOn_ac, splitOn_b]
    rfl
  have e2 : segPrefix ("b".splitOn ".") ("a.c".splitOn ".") = false := by
    rw [splitOn_ac, splitOn_b]
    rfl
  have e3 : passesCoerced [("a", Value.int 1), ("b", Value.int 2)]
      ("a.c".splitOn ".") ("b".splitOn ".") = false := by
    rw [splitOn_ac, splitOn_b]
    rfl
  exact ⟨e1, e2, e3,
    C10_set_frame [("a", Value.int 1), ("b", Value.int 2)] "a.c" "b"
      (Value.int 9) (by decide) (by decide) e1 e2 e3⟩

end Config
